import Mathlib

/-
Verification of the mc_broker_api repository (zerodha_api package) against its
natural-language specification.

The development shallowly embeds the relevant parts of the source:

* `src/zerodha_api/connect/main.py` — the rate-limited historical fetcher
  (`historical_data`, `_get_historical_step1`, `_get_historical_step2`,
  `_historical_data` with its retry decorator, `retry_if_exception`);
* `src/zerodha_api/ticker/main.py` — the streaming coordinator (`run`,
  `on_connect`, `on_ticks`, `on_noreconnect`);
* `src/zerodha_api/amqp/main.py` — the tick-cache task (`cache_on_redis`);
* `src/zerodha_api/settings.py` — the shared-store key constants.

Dates are modelled by a proleptic-Gregorian ordinal (`Date.toOrd`), matching
Python's `datetime.date.toordinal`; inside the chunk loop `from_date` always
carries time 00:00:00 and `to_date` time 23:59:59, so Python's
`(to_date - from_date).days` equals the difference of the day ordinals and the
whole loop is faithfully expressed on ordinals.  Stateful code (the websocket
handlers, the rate-limit guard) is embedded as explicit action traces or state
passing.  Venue responses are an oracle `resp : Nat → Nat → List RawBar`
mapping a requested window to the returned bars.
-/

namespace ZerodhaApi

/-! ## Calendar model (Python `datetime.date.toordinal`) -/

/-- A calendar date, as in Python's `datetime.date`. -/
structure Date where
  year : Nat
  month : Nat
  day : Nat
deriving DecidableEq, Repr

/-- Gregorian leap-year test, as Python's `calendar.isleap`. -/
def isLeapYear (y : Nat) : Bool :=
  (y % 4 == 0 && y % 100 != 0) || y % 400 == 0

/-- Days in the year strictly before month `m` (common year). -/
def daysBeforeMonth (m : Nat) : Nat :=
  match m with
  | 1 => 0 | 2 => 31 | 3 => 59 | 4 => 90 | 5 => 120 | 6 => 151
  | 7 => 181 | 8 => 212 | 9 => 243 | 10 => 273 | 11 => 304 | 12 => 334
  | _ => 0

/-- Proleptic-Gregorian day ordinal with day 1 = 0001-01-01, exactly
Python's `datetime.date.toordinal`. -/
def Date.toOrd (d : Date) : Nat :=
  365 * (d.year - 1) + (d.year - 1) / 4 - (d.year - 1) / 100 + (d.year - 1) / 400
    + daysBeforeMonth d.month
    + (if isLeapYear d.year && decide (3 ≤ d.month) then 1 else 0)
    + d.day

/-! ## Historical fetcher data model (`connect/main.py`) -/

/-- One raw bar as returned by `kite.historical_data`: keys
`date/open/high/low/close/volume/oi` (field names adjusted where Lean
reserves the word).  `date` is an opaque timestamp. -/
structure RawBar where
  date : Nat
  open_v : Int
  high_v : Int
  low_v : Int
  close_v : Int
  volume : Int
  oi_v : Int
deriving DecidableEq, Repr

/-- One row of the DataFrame produced by `_get_historical_step2` after the
`rename` call and the `instrument_token` / `interval` column writes
(lines 182-194 of `connect/main.py`).  The derived calendar columns added at
lines 266-274 are pure functions of `record_datetime` computed after
deduplication, so they are not materialised here; row equality (the key used
by `drop_duplicates`, which runs before they are added) is equality of these
fields. -/
structure Row where
  record_datetime : Nat
  open_price : Int
  high_price : Int
  low_price : Int
  close_price : Int
  volume : Int
  oi_v : Int
  instrument_token : Nat
  interval : String
deriving DecidableEq, Repr

/-- The column renaming and the `instrument_token`/`interval` attachment of
`_get_historical_step2` (lines 182-194). -/
def step2Rows (token : Nat) (interval : String) (bars : List RawBar) : List Row :=
  bars.map fun b =>
    { record_datetime := b.date
      open_price := b.open_v
      high_price := b.high_v
      low_price := b.low_v
      close_price := b.close_v
      volume := b.volume
      oi_v := b.oi_v
      instrument_token := token
      interval := interval }

/-- `KITE_HISTORICAL_DATA_REQUEST_INTERVAL_LIMIT` (line 59 of
`connect/main.py`): the 60-day chunk threshold. -/
def threshold : Nat := 60

/--
The `while True` chunk loop of `_get_historical_step1` (lines 217-250 of
`connect/main.py`), on day ordinals.  `d1` is `from_date`'s day (time
00:00:00, never changed), `d2` is the current `to_date`'s day (time
23:59:59).  Returns the list of fetched windows `(fd_new, to_date)` in fetch
order together with the list of non-empty chunk responses in append order:

* span > threshold: `fd_new = to_date - 60 days` truncated to 00:00:00, i.e.
  day `d2 - 60`; the chunk is fetched, appended only when non-empty; an empty
  response breaks the loop; otherwise `to_date` moves to `fd_new`'s date at
  23:59:59, i.e. day `d2 - 60`;
* span ≤ threshold: `fd_new = from_date`'s day, `is_break` is set, the chunk
  is fetched (appended only when non-empty) and the loop ends.
-/
def chunkWalk (resp : Nat → Nat → List RawBar) (d1 d2 : Nat) :
    List (Nat × Nat) × List (List RawBar) :=
  if d2 - d1 > threshold then
    if resp (d2 - threshold) d2 = [] then
      ([(d2 - threshold, d2)], [])
    else
      ((d2 - threshold, d2) :: (chunkWalk resp d1 (d2 - threshold)).1,
        resp (d2 - threshold) d2 :: (chunkWalk resp d1 (d2 - threshold)).2)
  else
    ([(d1, d2)], if resp d1 d2 = [] then [] else [resp d1 d2])
termination_by d2 - d1
decreasing_by all_goals simp only [threshold] at *; omega

/-- The windows actually fetched by the chunk loop, in fetch order. -/
def chunkWindows (resp : Nat → Nat → List RawBar) (d1 d2 : Nat) :
    List (Nat × Nat) :=
  (chunkWalk resp d1 d2).1

/-- Duplicate removal keeping the first occurrence, as pandas
`drop_duplicates` (line 264 of `connect/main.py`). -/
def dedupFirst [DecidableEq α] (seen : List α) : List α → List α
  | [] => []
  | x :: xs =>
    if x ∈ seen then dedupFirst seen xs
    else x :: dedupFirst (x :: seen) xs

/--
The tail of `_get_historical_step1` (lines 260-275): `pd.concat` over the
collected chunk DataFrames, then `hist_final_df["record_datetime"] = ...`,
then `drop_duplicates` / `reset_index`.

* `pd.concat([])` raises `ValueError: No objects to concatenate` — modelled
  as the first error case;
* a concatenation with zero rows arises only from empty chunk DataFrames,
  which have no columns (step 2 returns the bare `pd.DataFrame()` before any
  renaming), so the `record_datetime` column access raises a `KeyError` —
  modelled as the second error case;
* otherwise duplicates are dropped (first occurrence kept, order otherwise
  preserved) and the derived calendar columns — pure per-row functions of
  `record_datetime`, added after deduplication — are attached.
-/
def normalizeRows (dfs : List (List Row)) : Except String (List Row) :=
  if dfs = [] then Except.error "ValueError: no objects to concatenate"
  else if dfs.flatten = [] then Except.error "KeyError: record_datetime"
  else Except.ok (dedupFirst [] dfs.flatten)

/-- `_get_historical_step1` (lines 200-275 of `connect/main.py`): chunked walk
when the span exceeds the threshold, otherwise a single fetch whose DataFrame
is appended unconditionally (line 258) — even when empty — followed by the
normalization tail. -/
def getHistoricalStep1 (resp : Nat → Nat → List RawBar)
    (token : Nat) (interval : String) (d1 d2 : Nat) : Except String (List Row) :=
  let dfs : List (List Row) :=
    if d2 - d1 > threshold then
      ((chunkWalk resp d1 d2).2).map (step2Rows token interval)
    else
      [step2Rows token interval (resp d1 d2)]
  normalizeRows dfs

/-! ## Retry policy (`connect/main.py` lines 124-137) -/

/-- The `kiteconnect.exceptions` hierarchy as raised by the venue REST client,
plus `other` for any non-kite exception. -/
inductive KiteExc where
  | dataExc
  | networkExc
  | generalExc
  | tokenExc
  | permissionExc
  | orderExc
  | inputExc
  | other
deriving DecidableEq, Repr

/-- `Connect.retry_if_exception` (lines 125-129 of `connect/main.py`):
`isinstance(exception, (DataException, NetworkException, GeneralException))`. -/
def retry_if_exception (e : KiteExc) : Bool :=
  match e with
  | .dataExc => true
  | .networkExc => true
  | .generalExc => true
  | _ => false

/-- `stop_max_attempt_number=5` of the `@retry` decorator (line 132). -/
def stopMaxAttemptNumber : Nat := 5

/-- `wait_fixed=5000` (milliseconds) of the `@retry` decorator (line 133). -/
def waitFixedMs : Nat := 5000

/--
Modelled from the spec: the retry loop of the external `retrying` library that
the `@retry(stop_max_attempt_number=5, wait_fixed=5000,
retry_on_exception=retry_if_exception)` decorator on `Connect._historical_data`
configures (lines 131-137 of `connect/main.py`); the library itself is a
third-party collaborator, so the loop follows the RetryPolicy contract of
spec §4.3: attempt the operation; on success return; on an error for which the
classifier holds, sleep the fixed delay and re-attempt up to the attempt
ceiling; on the final failing attempt (or on any non-transient error) the
error propagates unchanged.

`attempt n` is the outcome of the `n`-th execution of the wrapped operation
(1-based).  Returns the final outcome, the index of the last attempt made and
the list of inter-attempt sleeps (in milliseconds).
-/
def retryFrom (attempt : Nat → Except KiteExc α) (n : Nat) :
    Except KiteExc α × Nat × List Nat :=
  match attempt n with
  | .ok a => (.ok a, n, [])
  | .error e =>
    if retry_if_exception e ∧ n < stopMaxAttemptNumber then
      let rest := retryFrom attempt (n + 1)
      (rest.1, rest.2.1, waitFixedMs :: rest.2.2)
    else
      (.error e, n, [])
termination_by stopMaxAttemptNumber - n
decreasing_by omega

/-- `Connect._historical_data`'s retry wrapper: execution starts with
attempt 1. -/
def retryCall (attempt : Nat → Except KiteExc α) :
    Except KiteExc α × Nat × List Nat :=
  retryFrom attempt 1

/-! ## Rate limiter (`connect/main.py` lines 149-174) -/

/-- Observable effects of `_get_historical_step2` around the guarded venue
call, in program order. -/
inductive Step2Action where
  | redisGetTs
  | sleepFor (d : ℚ)
  | venueCall
  | redisSetTs
deriving DecidableEq, Repr

/-- `1 / 3` second, the required minimum delay between historical API calls
(line 159 of `connect/main.py`). -/
def minInterval : ℚ := 1 / 3

/--
The rate-limit guard of `_get_historical_step2` (lines 149-174): read the
shared timestamp under `KITE_HISTORICAL_API_RATE_LIMIT`; if present and
`elapsed = time.time() - float(ts)` is below `1/3`, sleep `1/3 - elapsed`;
invoke the (retried) venue call; then write the current timestamp back.
`stored` is the timestamp read from the store, `now` the value of
`time.time()` at the elapsed-time computation.
-/
def rateLimitTrace (stored : Option ℚ) (now : ℚ) : List Step2Action :=
  Step2Action.redisGetTs ::
    ((match stored with
      | some ts =>
        if now - ts < minInterval then [Step2Action.sleepFor (minInterval - (now - ts))]
        else []
      | none => []) ++ [Step2Action.venueCall, Step2Action.redisSetTs])

/-! ## Streaming coordinator (`ticker/main.py`) -/

/-- `KITE_SUBSCRIPTIONS_UPDATE` from `settings.py` (line 12). -/
def KITE_SUBSCRIPTIONS_UPDATE : String := "kt:flag:subscriptions_update"

/-- `KITE_TICKER_STOP` from `settings.py` (line 9). -/
def KITE_TICKER_STOP : String := "kt:flag:stop"

/-- The default subscriptions of `Ticker.__init__` (line 44 of
`ticker/main.py`): NIFTY 50, NIFTY BANK, INDIA VIX. -/
def defaultSubscriptions : List Nat := [256265, 260105, 264969]

/-- A tick as consumed by the coordinator and the cache task: at least
`instrument_token` and `last_price`. -/
structure Tick where
  instrument_token : Nat
  last_price : ℚ
deriving DecidableEq, Repr

/-- Observable effects of the coordinator's websocket handlers, in program
order. -/
inductive WsAction where
  | sendTask (ticks : List Tick)
  | closeWs
  | setLiveness (ttl : Nat) (v : Nat)
  | subscribe (ids : List Nat)
  | setModeFull (ids : List Nat)
  | setFlag (key : String) (v : Nat)
deriving DecidableEq, Repr

/-- `Ticker.on_connect` (lines 110-123 of `ticker/main.py`):
`subscriptions = self.subscriptions + self._get_instruments()`, then one
`subscribe` and one `set_mode(MODE_FULL)` over that list.  `dyn` is the
dynamic instrument list read from the store. -/
def on_connect_trace (dyn : List Nat) : List WsAction :=
  [WsAction.subscribe (defaultSubscriptions ++ dyn),
   WsAction.setModeFull (defaultSubscriptions ++ dyn)]

/--
`Ticker.on_ticks` (lines 125-151 of `ticker/main.py`): first push the batch to
the task queue; then, if the stop flag reads `"1"`, close the websocket;
otherwise refresh the liveness flag (`setex`, TTL 3, value 1) and, if the
subscriptions-update flag reads `"1"`, re-merge and re-issue
`subscribe`/`set_mode` and write the flag back to 0.  `stopFlag` and
`updFlag` are the two flag reads (`None` when the key is absent), `dyn` the
dynamic instrument list.
-/
def on_ticks_trace (stopFlag updFlag : Option String) (dyn : List Nat)
    (ticks : List Tick) : List WsAction :=
  WsAction.sendTask ticks ::
    (if stopFlag = some "1" then [WsAction.closeWs]
     else
       WsAction.setLiveness 3 1 ::
         (if updFlag = some "1" then
            [WsAction.subscribe (defaultSubscriptions ++ dyn),
             WsAction.setModeFull (defaultSubscriptions ++ dyn),
             WsAction.setFlag KITE_SUBSCRIPTIONS_UPDATE 0]
          else []))

/-- `Ticker.on_noreconnect` (lines 163-170 of `ticker/main.py`) only logs a
warning: its observable action trace is empty. -/
def on_noreconnect_trace : List WsAction := []

/-- The callback slots of the venue streaming client (`KiteTicker`), per
spec §6. -/
inductive TickerCallback where
  | onOpen
  | onConnect
  | onTicks
  | onClose
  | onReconnect
  | onNoReconnect
  | onError
  | onOrderUpdate
  | onMessage
deriving DecidableEq, Repr

/-- The callback slots that `Ticker.run` assigns before `connect()`
(lines 91-99 of `ticker/main.py`), in assignment order. -/
def runWiredCallbacks : List TickerCallback :=
  [TickerCallback.onOpen, TickerCallback.onConnect, TickerCallback.onTicks,
   TickerCallback.onClose, TickerCallback.onReconnect, TickerCallback.onError,
   TickerCallback.onOrderUpdate]

/-- Modelled from the spec: the callbacks listed in the §4.5 transition table
(`onOpen`, `onConnect`, `onTicks`, `onReconnect`, `onNoReconnect`, `onClose`,
`onError`, `onOrderUpdate`), for comparison with `runWiredCallbacks`. -/
def spec45Callbacks : List TickerCallback :=
  [TickerCallback.onOpen, TickerCallback.onConnect, TickerCallback.onTicks,
   TickerCallback.onReconnect, TickerCallback.onNoReconnect,
   TickerCallback.onClose, TickerCallback.onError, TickerCallback.onOrderUpdate]

/-! ## Tick cache (`amqp/main.py` lines 51-73) -/

/-- The slice of the shared store that `cache_on_redis` touches: the
per-instrument `kt:ltp:{token}` scalars, the per-instrument `kt:{token}`
lists, the `KITE_SNAPSHOT_DATA` scalar and the `KITE_TICK_DATA` list.
Serialization is dropped: list entries hold the ticks (resp. batches)
themselves. -/
structure TickStore where
  ltp : Nat → Option ℚ
  instLog : Nat → List Tick
  snapshot : Option (List Tick)
  tickLog : List (List Tick)

/-- The per-tick body of `cache_on_redis`'s loop (lines 59-68 of
`amqp/main.py`): `set` the last price under the instrument's scalar key and
`rpush` the tick onto the instrument's list. -/
def cacheTick (s : TickStore) (t : Tick) : TickStore :=
  { s with
    ltp := fun k => if k = t.instrument_token then some t.last_price else s.ltp k
    instLog := fun k =>
      if k = t.instrument_token then s.instLog k ++ [t] else s.instLog k }

/-- `cache_on_redis` (lines 51-73 of `amqp/main.py`): loop over the batch,
then `set` the whole batch as the snapshot and `rpush` it onto the global
tick log. -/
def cache_on_redis (s : TickStore) (ticks : List Tick) : TickStore :=
  let s1 := ticks.foldl cacheTick s
  { s1 with snapshot := some ticks, tickLog := s1.tickLog ++ [ticks] }

/-! ## Auxiliary definitions for concrete instantiations and cache lemmas -/

/-- A single generic bar, used as a non-empty venue response. -/
def bar0 : RawBar := ⟨0, 1, 1, 1, 1, 0, 0⟩

/-- Venue oracle answering every window with one bar. -/
def respAll : Nat → Nat → List RawBar := fun _ _ => [bar0]

/-- Venue oracle answering every window with no data. -/
def respNone : Nat → Nat → List RawBar := fun _ _ => []

/-- Venue oracle answering each window with one bar stamped with the window's
lower day ordinal, so rows from different chunks are distinguishable. -/
def respStamp : Nat → Nat → List RawBar := fun f _ => [⟨f, 1, 1, 1, 1, 0, 0⟩]

/-- The all-empty tick store. -/
def emptyStore : TickStore :=
  { ltp := fun _ => none, instLog := fun _ => [], snapshot := none, tickLog := [] }

/-- The one-tick batch of the spec §8 cache scenario
(`instrument_token 123`, `last_price 100.5`). -/
def batch123 : List Tick := [⟨123, 201 / 2⟩]

/-- The last tick of a batch carrying the given instrument token, i.e. the
winning write for that token's last-price key. -/
def lastMatch (k : Nat) : List Tick → Option Tick
  | [] => none
  | t :: ts =>
    match lastMatch k ts with
    | some u => some u
    | none => if k = t.instrument_token then some t else none

/-- The ticks of a batch carrying the given instrument token, in batch
order: what one run of the cache loop appends to that token's list. -/
def ticksFor (k : Nat) : List Tick → List Tick
  | [] => []
  | t :: ts =>
    if k = t.instrument_token then t :: ticksFor k ts else ticksFor k ts

/-- Attempt oracle failing transiently on attempts 1-4 and succeeding on
attempt 5. -/
def attemptW : Nat → Except KiteExc Nat :=
  fun n => if n ≤ 4 then Except.error KiteExc.networkExc else Except.ok 7

/-! ## Helper lemmas: chunk walk -/

theorem chunkWalk_le (resp : Nat → Nat → List RawBar) (d1 d2 : Nat)
    (h : ¬ d2 - d1 > threshold) :
    chunkWalk resp d1 d2 =
      ([(d1, d2)], if resp d1 d2 = [] then [] else [resp d1 d2]) := by
  rw [chunkWalk]
  simp [h]

theorem chunkWalk_gt_nil (resp : Nat → Nat → List RawBar) (d1 d2 : Nat)
    (h : d2 - d1 > threshold) (he : resp (d2 - threshold) d2 = []) :
    chunkWalk resp d1 d2 = ([(d2 - threshold, d2)], []) := by
  rw [chunkWalk]
  simp [h, he]

theorem chunkWalk_gt_cons (resp : Nat → Nat → List RawBar) (d1 d2 : Nat)
    (h : d2 - d1 > threshold) (he : resp (d2 - threshold) d2 ≠ []) :
    chunkWalk resp d1 d2 =
      ((d2 - threshold, d2) :: (chunkWalk resp d1 (d2 - threshold)).1,
        resp (d2 - threshold) d2 :: (chunkWalk resp d1 (d2 - threshold)).2) := by
  conv_lhs => rw [chunkWalk]
  simp [h, he]

/-! ## Helper lemmas: deduplication -/

theorem dedupFirst_nodup_aux [DecidableEq α] (l : List α) :
    ∀ seen : List α,
      (dedupFirst seen l).Nodup ∧ ∀ x ∈ dedupFirst seen l, x ∉ seen := by
  induction l with
  | nil => intro seen; simp [dedupFirst]
  | cons x xs ih =>
    intro seen
    by_cases hx : x ∈ seen
    · simpa [dedupFirst, hx] using ih seen
    · rw [dedupFirst, if_neg hx]
      obtain ⟨hnd, hni⟩ := ih (x :: seen)
      refine ⟨List.nodup_cons.2 ⟨fun hmem => hni x hmem (List.mem_cons_self x seen), hnd⟩, ?_⟩
      intro y hy
      rcases List.mem_cons.1 hy with rfl | hy'
      · exact hx
      · exact fun hys => hni y hy' (List.mem_cons_of_mem _ hys)

theorem dedupFirst_nodup [DecidableEq α] (l : List α) :
    (dedupFirst ([] : List α) l).Nodup :=
  (dedupFirst_nodup_aux l []).1

theorem dedupFirst_ne_nil [DecidableEq α] (l : List α) (h : l ≠ []) :
    dedupFirst ([] : List α) l ≠ [] := by
  cases l with
  | nil => exact absurd rfl h
  | cons x xs => rw [dedupFirst, if_neg (List.not_mem_nil x)]; exact List.cons_ne_nil _ _

/-! ## Helper lemmas: step 2 rows and ordinals -/

theorem step2Rows_eq_nil (token : Nat) (interval : String) (l : List RawBar) :
    step2Rows token interval l = [] ↔ l = [] := by
  simp [step2Rows]

theorem ord_2024_01_01 : Date.toOrd ⟨2024, 1, 1⟩ = 738886 := by decide

theorem ord_2024_01_02 : Date.toOrd ⟨2024, 1, 2⟩ = 738887 := by decide

theorem ord_2024_02_14 : Date.toOrd ⟨2024, 2, 14⟩ = 738930 := by decide

theorem ord_2024_02_15 : Date.toOrd ⟨2024, 2, 15⟩ = 738931 := by decide

theorem ord_2024_03_02 : Date.toOrd ⟨2024, 3, 2⟩ = 738947 := by decide

theorem ord_2024_04_15 : Date.toOrd ⟨2024, 4, 15⟩ = 738991 := by decide

/-! ## Helper lemmas: chunk windows under gap-free responses -/

theorem chunkWindows_bounds (resp : Nat → Nat → List RawBar)
    (hresp : ∀ a b, resp a b ≠ []) :
    ∀ d2 d1, d1 ≤ d2 → ∀ w ∈ chunkWindows resp d1 d2,
      d1 ≤ w.1 ∧ w.1 ≤ w.2 ∧ w.2 ≤ d2 ∧ w.2 - w.1 ≤ threshold := by
  intro d2
  induction d2 using Nat.strong_induction_on with
  | _ d2 ih =>
    intro d1 hd w hw
    by_cases h : d2 - d1 > threshold
    · rw [chunkWindows, chunkWalk_gt_cons resp d1 d2 h (hresp _ _)] at hw
      simp only [threshold] at h
      rcases List.mem_cons.1 hw with rfl | hw'
      · simp only [threshold]
        omega
      · have hrec := ih (d2 - threshold) (by simp only [threshold]; omega) d1
          (by simp only [threshold]; omega) w hw'
        simp only [threshold] at hrec ⊢
        omega
    · rw [chunkWindows, chunkWalk_le resp d1 d2 h] at hw
      simp only [List.mem_singleton] at hw
      subst hw
      simp only [threshold] at h ⊢
      omega

theorem chunkWindows_cover (resp : Nat → Nat → List RawBar)
    (hresp : ∀ a b, resp a b ≠ []) :
    ∀ d2 d1, d1 ≤ d2 → ∀ x, d1 ≤ x → x ≤ d2 →
      ∃ w, w ∈ chunkWindows resp d1 d2 ∧ w.1 ≤ x ∧ x ≤ w.2 := by
  intro d2
  induction d2 using Nat.strong_induction_on with
  | _ d2 ih =>
    intro d1 hd x hx1 hx2
    by_cases h : d2 - d1 > threshold
    · rw [chunkWindows, chunkWalk_gt_cons resp d1 d2 h (hresp _ _)]
      by_cases hxh : d2 - threshold ≤ x
      · exact ⟨(d2 - threshold, d2), List.mem_cons_self _ _, hxh, hx2⟩
      · simp only [threshold] at h hxh
        obtain ⟨w, hw, hw1, hw2⟩ :=
          ih (d2 - threshold) (by simp only [threshold]; omega) d1
            (by simp only [threshold]; omega) x hx1
            (by simp only [threshold]; omega)
        exact ⟨w, List.mem_cons_of_mem _ hw, hw1, hw2⟩
    · rw [chunkWindows, chunkWalk_le resp d1 d2 h]
      exact ⟨(d1, d2), List.mem_singleton.2 rfl, hx1, hx2⟩

theorem chunkWindows_head_snd (resp : Nat → Nat → List RawBar) (d1 d2 : Nat) :
    ∀ w, (chunkWindows resp d1 d2).head? = some w → w.2 = d2 := by
  intro w hw
  by_cases h : d2 - d1 > threshold
  · by_cases he : resp (d2 - threshold) d2 = []
    · rw [chunkWindows, chunkWalk_gt_nil resp d1 d2 h he] at hw
      simp only [List.head?_cons, Option.some.injEq] at hw
      subst hw
      rfl
    · rw [chunkWindows, chunkWalk_gt_cons resp d1 d2 h he] at hw
      simp only [List.head?_cons, Option.some.injEq] at hw
      subst hw
      rfl
  · rw [chunkWindows, chunkWalk_le resp d1 d2 h] at hw
    simp only [List.head?_cons, Option.some.injEq] at hw
    subst hw
    rfl

theorem chunkWindows_chain (resp : Nat → Nat → List RawBar)
    (hresp : ∀ a b, resp a b ≠ []) :
    ∀ d2 d1, List.Chain' (fun w w' => w'.2 = w.1) (chunkWindows resp d1 d2) := by
  intro d2
  induction d2 using Nat.strong_induction_on with
  | _ d2 ih =>
    intro d1
    by_cases h : d2 - d1 > threshold
    · rw [chunkWindows, chunkWalk_gt_cons resp d1 d2 h (hresp _ _)]
      refine List.chain'_cons'.2 ⟨?_, ?_⟩
      · intro y hy
        exact chunkWindows_head_snd resp d1 (d2 - threshold) y hy
      · exact ih (d2 - threshold) (by simp only [threshold] at h ⊢; omega) d1
    · rw [chunkWindows, chunkWalk_le resp d1 d2 h]
      simp

/-! ## Helper lemmas: retry policy -/

theorem retryFrom_ok {α : Type} (attempt : Nat → Except KiteExc α) (n : Nat) (a : α)
    (h : attempt n = Except.ok a) : retryFrom attempt n = (Except.ok a, n, []) := by
  conv_lhs => rw [retryFrom]
  rw [h]

theorem retryFrom_step {α : Type} (attempt : Nat → Except KiteExc α) (n : Nat)
    (e : KiteExc) (h : attempt n = Except.error e)
    (ht : retry_if_exception e = true) (hn : n < stopMaxAttemptNumber) :
    retryFrom attempt n =
      ((retryFrom attempt (n + 1)).1, (retryFrom attempt (n + 1)).2.1,
        waitFixedMs :: (retryFrom attempt (n + 1)).2.2) := by
  conv_lhs => rw [retryFrom]
  rw [h]
  simp [ht, hn]

theorem retryFrom_stop {α : Type} (attempt : Nat → Except KiteExc α) (n : Nat)
    (e : KiteExc) (h : attempt n = Except.error e)
    (hc : ¬ (retry_if_exception e = true ∧ n < stopMaxAttemptNumber)) :
    retryFrom attempt n = (Except.error e, n, []) := by
  conv_lhs => rw [retryFrom]
  rw [h]
  simp only [if_neg hc]

theorem retryFrom_lastAttempt_le {α : Type} (attempt : Nat → Except KiteExc α) :
    ∀ k n, stopMaxAttemptNumber - n ≤ k → n ≤ stopMaxAttemptNumber →
      (retryFrom attempt n).2.1 ≤ stopMaxAttemptNumber := by
  intro k
  induction k with
  | zero =>
    intro n hk hn
    cases hA : attempt n with
    | ok a => rw [retryFrom_ok attempt n a hA]; exact hn
    | error e =>
      rw [retryFrom_stop attempt n e hA
        (fun hc => by simp only [stopMaxAttemptNumber] at hk hc; omega)]
      exact hn
  | succ k ih =>
    intro n hk hn
    cases hA : attempt n with
    | ok a => rw [retryFrom_ok attempt n a hA]; exact hn
    | error e =>
      by_cases hc : retry_if_exception e = true ∧ n < stopMaxAttemptNumber
      · rw [retryFrom_step attempt n e hA hc.1 hc.2]
        exact ih (n + 1) (by simp only [stopMaxAttemptNumber] at hk ⊢; omega) hc.2
      · rw [retryFrom_stop attempt n e hA hc]
        exact hn

theorem retryFrom_sleeps {α : Type} (attempt : Nat → Except KiteExc α) :
    ∀ k n, stopMaxAttemptNumber - n ≤ k →
      ∀ d ∈ (retryFrom attempt n).2.2, d = waitFixedMs := by
  intro k
  induction k with
  | zero =>
    intro n hk d hd
    cases hA : attempt n with
    | ok a => rw [retryFrom_ok attempt n a hA] at hd; simp at hd
    | error e =>
      by_cases hc : retry_if_exception e = true ∧ n < stopMaxAttemptNumber
      · exact absurd hc.2 (by simp only [stopMaxAttemptNumber] at hk ⊢; omega)
      · rw [retryFrom_stop attempt n e hA hc] at hd; simp at hd
  | succ k ih =>
    intro n hk d hd
    cases hA : attempt n with
    | ok a => rw [retryFrom_ok attempt n a hA] at hd; simp at hd
    | error e =>
      by_cases hc : retry_if_exception e = true ∧ n < stopMaxAttemptNumber
      · rw [retryFrom_step attempt n e hA hc.1 hc.2] at hd
        rcases List.mem_cons.1 hd with rfl | hd'
        · rfl
        · exact ih (n + 1) (by simp only [stopMaxAttemptNumber] at hk ⊢; omega) d hd'
      · rw [retryFrom_stop attempt n e hA hc] at hd; simp at hd

/-! ## Helper lemmas: tick cache -/

theorem foldl_cacheTick_tickLog (ticks : List Tick) :
    ∀ s : TickStore, (ticks.foldl cacheTick s).tickLog = s.tickLog := by
  induction ticks with
  | nil => intro s; rfl
  | cons t ts ih => intro s; rw [List.foldl_cons, ih]; rfl

theorem foldl_cacheTick_instLog (ticks : List Tick) :
    ∀ (s : TickStore) (k : Nat),
      (ticks.foldl cacheTick s).instLog k = s.instLog k ++ ticksFor k ticks := by
  induction ticks with
  | nil => intro s k; simp [ticksFor]
  | cons t ts ih =>
    intro s k
    rw [List.foldl_cons, ih]
    by_cases hk : k = t.instrument_token
    · simp [cacheTick, ticksFor, hk]
    · simp [cacheTick, ticksFor, hk]

theorem foldl_cacheTick_ltp (ticks : List Tick) :
    ∀ (s : TickStore) (k : Nat),
      (ticks.foldl cacheTick s).ltp k =
        match lastMatch k ticks with
        | some u => some u.last_price
        | none => s.ltp k := by
  induction ticks with
  | nil => intro s k; simp [lastMatch]
  | cons t ts ih =>
    intro s k
    rw [List.foldl_cons, ih, lastMatch]
    cases hm : lastMatch k ts with
    | some u => simp [hm]
    | none =>
      simp only [hm]
      by_cases hk : k = t.instrument_token
      · simp [cacheTick, hk]
      · simp [cacheTick, hk]

/-! ## Claims -/

/-- C1, counterexample: for `historical_data(123, "2024-01-01", "2024-04-15",
"day")` the fetcher does issue 2 chunk fetches with the first over
[2024-02-15, 2024-04-15], but the second is over [2024-01-01, 2024-02-15] —
not [2024-01-01, 2024-02-14] as claimed (the loop moves `to_date` to the new
lower bound's own date at 23:59:59) — and with per-window-stamped responses
the returned dataset keeps chunk order (most recent chunk first), so it is
not date-ascending. -/
theorem C1_counterexample :
    chunkWindows respStamp (Date.toOrd ⟨2024, 1, 1⟩) (Date.toOrd ⟨2024, 4, 15⟩) ≠
      [(Date.toOrd ⟨2024, 2, 15⟩, Date.toOrd ⟨2024, 4, 15⟩),
       (Date.toOrd ⟨2024, 1, 1⟩, Date.toOrd ⟨2024, 2, 14⟩)] ∧
    getHistoricalStep1 respStamp 123 "day"
        (Date.toOrd ⟨2024, 1, 1⟩) (Date.toOrd ⟨2024, 4, 15⟩) =
      Except.ok
        [⟨738931, 1, 1, 1, 1, 0, 0, 123, "day"⟩,
         ⟨738886, 1, 1, 1, 1, 0, 0, 123, "day"⟩] ∧
    ¬ List.Chain' (fun r r' : Row => r.record_datetime ≤ r'.record_datetime)
        [⟨738931, 1, 1, 1, 1, 0, 0, 123, "day"⟩,
         ⟨738886, 1, 1, 1, 1, 0, 0, 123, "day"⟩] := by
  refine ⟨?_, ?_, by simp [List.chain'_cons]⟩
  · simp only [ord_2024_01_01, ord_2024_02_14, ord_2024_02_15, ord_2024_04_15]
    simp [chunkWindows, chunkWalk, threshold, respStamp]
  · simp only [ord_2024_01_01, ord_2024_04_15]
    simp [getHistoricalStep1, chunkWalk, threshold, respStamp, normalizeRows,
      step2Rows, dedupFirst]

/-- C1, amended: for the call `historical_data(instrument_token=123,
from_date="2024-01-01", to_date="2024-04-15", interval="day")` (whenever the
leading chunk returns data), the fetcher issues exactly 2 chunk fetches, the
first over [2024-02-15, 2024-04-15] and the second over
[2024-01-01, 2024-02-15] (the two windows share the boundary day
2024-02-15), and returns the deduplicated concatenation of the two chunks'
rows — most recent chunk first, with no duplicate rows. -/
theorem C1_amended (resp : Nat → Nat → List RawBar)
    (hfirst : resp (Date.toOrd ⟨2024, 2, 15⟩) (Date.toOrd ⟨2024, 4, 15⟩) ≠ []) :
    chunkWindows resp (Date.toOrd ⟨2024, 1, 1⟩) (Date.toOrd ⟨2024, 4, 15⟩) =
      [(Date.toOrd ⟨2024, 2, 15⟩, Date.toOrd ⟨2024, 4, 15⟩),
       (Date.toOrd ⟨2024, 1, 1⟩, Date.toOrd ⟨2024, 2, 15⟩)] ∧
    getHistoricalStep1 resp 123 "day"
        (Date.toOrd ⟨2024, 1, 1⟩) (Date.toOrd ⟨2024, 4, 15⟩) =
      Except.ok (dedupFirst []
        (step2Rows 123 "day"
            (resp (Date.toOrd ⟨2024, 2, 15⟩) (Date.toOrd ⟨2024, 4, 15⟩)) ++
         step2Rows 123 "day"
            (resp (Date.toOrd ⟨2024, 1, 1⟩) (Date.toOrd ⟨2024, 2, 15⟩)))) ∧
    (dedupFirst []
        (step2Rows 123 "day"
            (resp (Date.toOrd ⟨2024, 2, 15⟩) (Date.toOrd ⟨2024, 4, 15⟩)) ++
         step2Rows 123 "day"
            (resp (Date.toOrd ⟨2024, 1, 1⟩) (Date.toOrd ⟨2024, 2, 15⟩)))).Nodup := by
  simp only [ord_2024_01_01, ord_2024_02_15, ord_2024_04_15] at hfirst ⊢
  have hgt : (738991 : Nat) - 738886 > threshold := by decide
  have hsub : (738991 : Nat) - threshold = 738931 := by decide
  have hle : ¬ ((738931 : Nat) - 738886 > threshold) := by decide
  have hw1 := chunkWalk_gt_cons resp 738886 738991 hgt (by rw [hsub]; exact hfirst)
  rw [hsub] at hw1
  have hw2 := chunkWalk_le resp 738886 738931 hle
  refine ⟨?_, ?_, dedupFirst_nodup _⟩
  · rw [chunkWindows, hw1, hw2]
  · simp only [getHistoricalStep1, if_pos hgt]
    rw [hw1, hw2]
    by_cases hsec : resp 738886 738931 = []
    · simp [normalizeRows, hsec, step2Rows_eq_nil, hfirst, step2Rows]
    · simp [normalizeRows, hsec, step2Rows_eq_nil, hfirst]

/-- C1, witness: the amended theorem applied to the gap-free response
oracle. -/
theorem C1_witness :
    respAll (Date.toOrd ⟨2024, 2, 15⟩) (Date.toOrd ⟨2024, 4, 15⟩) ≠ [] ∧
    chunkWindows respAll (Date.toOrd ⟨2024, 1, 1⟩) (Date.toOrd ⟨2024, 4, 15⟩) =
      [(Date.toOrd ⟨2024, 2, 15⟩, Date.toOrd ⟨2024, 4, 15⟩),
       (Date.toOrd ⟨2024, 1, 1⟩, Date.toOrd ⟨2024, 2, 15⟩)] :=
  ⟨by simp [respAll], (C1_amended respAll (by simp [respAll])).1⟩

/-- C2, counterexample: for the 61-day span 2024-01-01 .. 2024-03-02 under a
gap-free oracle the walk produces the windows [2024-01-02, 2024-03-02] and
[2024-01-01, 2024-01-02]: both contain the boundary day 2024-01-02, so the
windows are not pairwise non-overlapping. -/
theorem C2_counterexample :
    chunkWindows respAll (Date.toOrd ⟨2024, 1, 1⟩) (Date.toOrd ⟨2024, 3, 2⟩) =
      [(Date.toOrd ⟨2024, 1, 2⟩, Date.toOrd ⟨2024, 3, 2⟩),
       (Date.toOrd ⟨2024, 1, 1⟩, Date.toOrd ⟨2024, 1, 2⟩)] ∧
    ¬ List.Pairwise (fun w w' : Nat × Nat => w'.2 < w.1 ∨ w.2 < w'.1)
        (chunkWindows respAll (Date.toOrd ⟨2024, 1, 1⟩) (Date.toOrd ⟨2024, 3, 2⟩)) := by
  have h : chunkWindows respAll (Date.toOrd ⟨2024, 1, 1⟩) (Date.toOrd ⟨2024, 3, 2⟩) =
      [(Date.toOrd ⟨2024, 1, 2⟩, Date.toOrd ⟨2024, 3, 2⟩),
       (Date.toOrd ⟨2024, 1, 1⟩, Date.toOrd ⟨2024, 1, 2⟩)] := by
    simp only [ord_2024_01_01, ord_2024_01_02, ord_2024_03_02]
    simp [chunkWindows, chunkWalk, threshold, respAll]
  refine ⟨h, ?_⟩
  rw [h]
  simp only [ord_2024_01_01, ord_2024_01_02, ord_2024_03_02]
  decide

/-- C2, amended: for every requested pair with span above the 60-day
threshold, under gap-free responses the chunk walk emits windows that cover
[fromDate, toDate], each spanning at most 60 days, most-recent-first (the
head window is [toDate − 60, toDate]), with consecutive windows abutting on a
shared boundary day (the next window's upper day equals the current window's
lower day) — so the windows overlap pairwise on exactly that one shared
calendar day rather than being disjoint. -/
theorem C2_amended (resp : Nat → Nat → List RawBar) (d1 d2 : Nat)
    (hresp : ∀ a b, resp a b ≠ []) (hspan : d2 - d1 > threshold) :
    (∀ w ∈ chunkWindows resp d1 d2,
       d1 ≤ w.1 ∧ w.1 ≤ w.2 ∧ w.2 ≤ d2 ∧ w.2 - w.1 ≤ threshold) ∧
    (∀ x, d1 ≤ x → x ≤ d2 → ∃ w, w ∈ chunkWindows resp d1 d2 ∧ w.1 ≤ x ∧ x ≤ w.2) ∧
    (chunkWindows resp d1 d2).head? = some (d2 - threshold, d2) ∧
    List.Chain' (fun w w' => w'.2 = w.1) (chunkWindows resp d1 d2) := by
  have hd : d1 ≤ d2 := by simp only [threshold] at hspan; omega
  refine ⟨chunkWindows_bounds resp hresp d2 d1 hd,
    chunkWindows_cover resp hresp d2 d1 hd, ?_,
    chunkWindows_chain resp hresp d2 d1⟩
  rw [chunkWindows, chunkWalk_gt_cons resp d1 d2 hspan (hresp _ _)]
  rfl

/-- C2, witness: the amended theorem applied to the gap-free oracle on the
105-day span. -/
theorem C2_witness :
    (∀ a b, respAll a b ≠ []) ∧ ((738991 : Nat) - 738886 > threshold) ∧
    (chunkWindows respAll 738886 738991).head? = some (738991 - threshold, 738991) :=
  ⟨fun a b => by simp [respAll], by decide,
   (C2_amended respAll 738886 738991 (fun a b => by simp [respAll]) (by decide)).2.2.1⟩

/-- C3, counterexample: with responses empty everywhere and a 61-day span,
the first (non-final) chunk's empty response does stop the walk after a
single fetch, but the overall fetch then raises during final normalization
(`pd.concat` of no objects) — it is an error of the overall fetch, contrary
to the claim. -/
theorem C3_counterexample :
    chunkWindows respNone (Date.toOrd ⟨2024, 1, 1⟩) (Date.toOrd ⟨2024, 3, 2⟩) =
      [(Date.toOrd ⟨2024, 1, 2⟩, Date.toOrd ⟨2024, 3, 2⟩)] ∧
    getHistoricalStep1 respNone 123 "day"
        (Date.toOrd ⟨2024, 1, 1⟩) (Date.toOrd ⟨2024, 3, 2⟩) =
      Except.error "ValueError: no objects to concatenate" := by
  simp only [ord_2024_01_01, ord_2024_01_02, ord_2024_03_02]
  constructor
  · simp [chunkWindows, chunkWalk, threshold, respNone]
  · simp [getHistoricalStep1, chunkWalk, threshold, respNone, normalizeRows]

/-- C3, amended: an empty response for a non-final chunk stops the walk early
(nothing further is fetched or collected); the final iteration (span at most
the threshold) always fetches the residual slice and stops regardless of its
result; a gap found after a non-empty leading chunk is not an error of the
overall fetch (it returns a non-empty dataset); but when the leading chunk
itself is empty the overall fetch raises during final normalization. -/
theorem C3_amended :
    (∀ (resp : Nat → Nat → List RawBar) (d1 d2 : Nat),
       d2 - d1 > threshold → resp (d2 - threshold) d2 = [] →
       chunkWalk resp d1 d2 = ([(d2 - threshold, d2)], [])) ∧
    (∀ (resp : Nat → Nat → List RawBar) (d1 d2 : Nat),
       ¬ d2 - d1 > threshold → (chunkWalk resp d1 d2).1 = [(d1, d2)]) ∧
    (∀ (resp : Nat → Nat → List RawBar) (token : Nat) (interval : String) (d1 d2 : Nat),
       d2 - d1 > threshold → resp (d2 - threshold) d2 ≠ [] →
       ∃ rows, getHistoricalStep1 resp token interval d1 d2 = Except.ok rows ∧
         rows ≠ []) ∧
    (∀ (resp : Nat → Nat → List RawBar) (token : Nat) (interval : String) (d1 d2 : Nat),
       d2 - d1 > threshold → resp (d2 - threshold) d2 = [] →
       getHistoricalStep1 resp token interval d1 d2 =
         Except.error "ValueError: no objects to concatenate") := by
  refine ⟨?_, ?_, ?_, ?_⟩
  · intro resp d1 d2 h he
    exact chunkWalk_gt_nil resp d1 d2 h he
  · intro resp d1 d2 h
    rw [chunkWalk_le resp d1 d2 h]
  · intro resp token interval d1 d2 h hne
    simp only [getHistoricalStep1, if_pos h]
    rw [chunkWalk_gt_cons resp d1 d2 h hne]
    have hflat :
        (List.map (step2Rows token interval)
          (resp (d2 - threshold) d2 :: (chunkWalk resp d1 (d2 - threshold)).2)).flatten ≠ [] := by
      simp only [List.map_cons, List.flatten_cons]
      intro hx
      rcases List.append_eq_nil.mp hx with ⟨h1, _⟩
      exact hne ((step2Rows_eq_nil _ _ _).mp h1)
    refine ⟨_, ?_, dedupFirst_ne_nil _ hflat⟩
    rw [normalizeRows, if_neg (by simp), if_neg hflat]
  · intro resp token interval d1 d2 h he
    simp only [getHistoricalStep1, if_pos h]
    rw [chunkWalk_gt_nil resp d1 d2 h he]
    simp [normalizeRows]

/-- C3, witness: the amended theorem's first conjunct applied to the all-empty
oracle on a 61-day span. -/
theorem C3_witness :
    ((738947 : Nat) - 738886 > threshold) ∧
    chunkWalk respNone 738886 738947 = ([(738947 - threshold, 738947)], []) :=
  ⟨by decide, C3_amended.1 respNone 738886 738947 (by decide) (by simp [respNone])⟩

/-- C4: the retry wrapper around the venue historical-data call makes at most
5 attempts with a fixed 5000 ms (5 s) delay between attempts, retries only
errors in the transient set accepted by `retry_if_exception` (data, network,
general), propagates a non-transient error immediately without retrying,
returns the success result when 4 transient failures are followed by a
success on attempt 5, and propagates the last error unchanged when all 5
attempts fail transiently. -/
theorem C4_retry_policy {α : Type} (attempt : Nat → Except KiteExc α) :
    ((retryCall attempt).2.1 ≤ stopMaxAttemptNumber) ∧
    (∀ d ∈ (retryCall attempt).2.2, d = waitFixedMs) ∧
    (∀ e, retry_if_exception e = false → attempt 1 = Except.error e →
       retryCall attempt = (Except.error e, 1, [])) ∧
    (∀ a : α,
       (∀ i, 1 ≤ i → i ≤ 4 →
         ∃ e, attempt i = Except.error e ∧ retry_if_exception e = true) →
       attempt 5 = Except.ok a →
       retryCall attempt =
         (Except.ok a, 5, [waitFixedMs, waitFixedMs, waitFixedMs, waitFixedMs])) ∧
    (∀ e5,
       (∀ i, 1 ≤ i → i ≤ 5 →
         ∃ e, attempt i = Except.error e ∧ retry_if_exception e = true) →
       attempt 5 = Except.error e5 →
       retryCall attempt =
         (Except.error e5, 5, [waitFixedMs, waitFixedMs, waitFixedMs, waitFixedMs])) := by
  refine ⟨?_, ?_, ?_, ?_, ?_⟩
  · exact retryFrom_lastAttempt_le attempt stopMaxAttemptNumber 1 (by decide) (by decide)
  · intro d hd
    exact retryFrom_sleeps attempt stopMaxAttemptNumber 1 (by decide) d hd
  · intro e hf h1
    exact retryFrom_stop attempt 1 e h1 (fun hc => by rw [hf] at hc; exact absurd hc.1 (by decide))
  · intro a hfail h5
    obtain ⟨e1, h1, t1⟩ := hfail 1 (by omega) (by omega)
    obtain ⟨e2, h2, t2⟩ := hfail 2 (by omega) (by omega)
    obtain ⟨e3, h3, t3⟩ := hfail 3 (by omega) (by omega)
    obtain ⟨e4, h4, t4⟩ := hfail 4 (by omega) (by omega)
    show retryFrom attempt 1 = _
    rw [retryFrom_step attempt 1 e1 h1 t1 (by decide),
        retryFrom_step attempt 2 e2 h2 t2 (by decide),
        retryFrom_step attempt 3 e3 h3 t3 (by decide),
        retryFrom_step attempt 4 e4 h4 t4 (by decide),
        retryFrom_ok attempt 5 a h5]
  · intro e5 hfail h5
    obtain ⟨e1, h1, t1⟩ := hfail 1 (by omega) (by omega)
    obtain ⟨e2, h2, t2⟩ := hfail 2 (by omega) (by omega)
    obtain ⟨e3, h3, t3⟩ := hfail 3 (by omega) (by omega)
    obtain ⟨e4, h4, t4⟩ := hfail 4 (by omega) (by omega)
    show retryFrom attempt 1 = _
    rw [retryFrom_step attempt 1 e1 h1 t1 (by decide),
        retryFrom_step attempt 2 e2 h2 t2 (by decide),
        retryFrom_step attempt 3 e3 h3 t3 (by decide),
        retryFrom_step attempt 4 e4 h4 t4 (by decide),
        retryFrom_stop attempt 5 e5 h5 (fun hc => absurd hc.2 (by decide))]

/-- C4, witness: an operation failing transiently on attempts 1-4 and
succeeding on attempt 5 returns the success after 4 fixed sleeps. -/
theorem C4_witness :
    retryCall attemptW =
      (Except.ok 7, 5, [waitFixedMs, waitFixedMs, waitFixedMs, waitFixedMs]) :=
  (C4_retry_policy attemptW).2.2.2.1 7
    (fun i _ h4 => ⟨KiteExc.networkExc, by simp [attemptW, h4], rfl⟩)
    (by simp [attemptW])

/-- C5: `on_ticks` forwards the entire batch to the task queue before the
stop-flag check: with the stop flag already `"1"` when the batch arrives, the
handler's trace is exactly [forward batch, close session], and for any flag
state the first action is always the forward — the stopping batch is never
lost. -/
theorem C5_forward_before_stop (updFlag : Option String) (dyn : List Nat)
    (ticks : List Tick) :
    on_ticks_trace (some "1") updFlag dyn ticks =
      [WsAction.sendTask ticks, WsAction.closeWs] ∧
    (∀ stopFlag, (on_ticks_trace stopFlag updFlag dyn ticks).head? =
      some (WsAction.sendTask ticks)) := by
  constructor
  · simp [on_ticks_trace]
  · intro stopFlag
    simp [on_ticks_trace]

/-- C6: before the guarded venue call, if a shared rate-limit timestamp
exists and less than `1/3` second has elapsed since it, the caller sleeps
exactly the residual `1/3 − elapsed`; if at least `1/3` second has elapsed,
or no timestamp exists, there is no sleep; and in every case the timestamp
write-back is the action directly after the venue call. -/
theorem C6_rate_limiter (ts now : ℚ) :
    (now - ts < minInterval →
      rateLimitTrace (some ts) now =
        [Step2Action.redisGetTs, Step2Action.sleepFor (minInterval - (now - ts)),
         Step2Action.venueCall, Step2Action.redisSetTs]) ∧
    (¬ now - ts < minInterval →
      rateLimitTrace (some ts) now =
        [Step2Action.redisGetTs, Step2Action.venueCall, Step2Action.redisSetTs]) ∧
    rateLimitTrace none now =
      [Step2Action.redisGetTs, Step2Action.venueCall, Step2Action.redisSetTs] :=
  ⟨fun h => by simp [rateLimitTrace, h],
   fun h => by simp [rateLimitTrace, h],
   by simp [rateLimitTrace]⟩

/-- C6, witness: with the last call recorded at time 0 and the clock at
1/6 s, the second call sleeps exactly 1/3 − 1/6. -/
theorem C6_witness :
    ((1 : ℚ) / 6 - 0 < minInterval) ∧
    rateLimitTrace (some 0) (1 / 6) =
      [Step2Action.redisGetTs, Step2Action.sleepFor (minInterval - (1 / 6 - 0)),
       Step2Action.venueCall, Step2Action.redisSetTs] :=
  ⟨by norm_num [minInterval],
   (C6_rate_limiter 0 (1 / 6)).1 (by norm_num [minInterval])⟩

/-- C7, counterexample: with the dynamic set holding the default token
256265, `on_connect` transmits the plain concatenation
[256265, 260105, 264969, 256265], which contains a duplicate — the merge
step does not avoid duplicates. -/
theorem C7_counterexample :
    on_connect_trace [256265] =
      [WsAction.subscribe [256265, 260105, 264969, 256265],
       WsAction.setModeFull [256265, 260105, 264969, 256265]] ∧
    ¬ ([256265, 260105, 264969, 256265] : List Nat).Nodup := by
  constructor
  · simp [on_connect_trace, defaultSubscriptions]
  · decide

/-- C7, amended: every subscribe/set_mode call issued in `on_connect` and in
the resubscribe branch of `on_ticks` transmits the concatenation of the fixed
default subscription list with the dynamic set, so the default set is always
included (it is a sublist of every transmitted list); but the merge is plain
list concatenation and performs no duplicate avoidance. -/
theorem C7_amended (dyn : List Nat) (ticks : List Tick) :
    on_connect_trace dyn =
      [WsAction.subscribe (defaultSubscriptions ++ dyn),
       WsAction.setModeFull (defaultSubscriptions ++ dyn)] ∧
    on_ticks_trace none (some "1") dyn ticks =
      [WsAction.sendTask ticks, WsAction.setLiveness 3 1,
       WsAction.subscribe (defaultSubscriptions ++ dyn),
       WsAction.setModeFull (defaultSubscriptions ++ dyn),
       WsAction.setFlag KITE_SUBSCRIPTIONS_UPDATE 0] ∧
    defaultSubscriptions.Sublist (defaultSubscriptions ++ dyn) :=
  ⟨rfl, by simp [on_ticks_trace], List.sublist_append_left _ _⟩

/-- C8, counterexample: running `cache_on_redis` twice on the same one-tick
batch from the empty store does not reproduce the single-run state — the
global tick log receives the batch twice. -/
theorem C8_counterexample :
    cache_on_redis (cache_on_redis emptyStore batch123) batch123 ≠
      cache_on_redis emptyStore batch123 := by
  intro h
  have h2 := congrArg TickStore.tickLog h
  simp [cache_on_redis, foldl_cacheTick_tickLog, emptyStore] at h2

/-- C8, amended: re-running `cache_on_redis` on the same batch is idempotent
on the scalar keys — the per-instrument last-price values and the snapshot
are unchanged — but not on the append-only lists: the global tick log gains
the batch once more and each per-instrument list gains that instrument's
ticks once more. -/
theorem C8_amended (s : TickStore) (b : List Tick) :
    (cache_on_redis (cache_on_redis s b) b).ltp = (cache_on_redis s b).ltp ∧
    (cache_on_redis (cache_on_redis s b) b).snapshot =
      (cache_on_redis s b).snapshot ∧
    (cache_on_redis (cache_on_redis s b) b).tickLog =
      (cache_on_redis s b).tickLog ++ [b] ∧
    ∀ k, (cache_on_redis (cache_on_redis s b) b).instLog k =
      (cache_on_redis s b).instLog k ++ ticksFor k b := by
  refine ⟨?_, rfl, ?_, ?_⟩
  · funext k
    show (b.foldl cacheTick (cache_on_redis s b)).ltp k = (cache_on_redis s b).ltp k
    rw [foldl_cacheTick_ltp]
    cases hm : lastMatch k b with
    | some u =>
      show some u.last_price = (b.foldl cacheTick s).ltp k
      rw [foldl_cacheTick_ltp, hm]
    | none => rfl
  · show (b.foldl cacheTick (cache_on_redis s b)).tickLog ++ [b] = _
    rw [foldl_cacheTick_tickLog]
  · intro k
    show (b.foldl cacheTick (cache_on_redis s b)).instLog k = _
    rw [foldl_cacheTick_instLog]

/-- C9: if no fetched chunk returns data, `historical_data` raises during
final normalization instead of returning an empty dataset: an empty single
chunk (span at most 60 days) hits the `record_datetime` column access on a
column-less frame, an empty leading chunk of a longer span hits
`pd.concat([])`, and an `ok` result is never the empty dataset. -/
theorem C9_empty_raises (resp : Nat → Nat → List RawBar) (token : Nat)
    (interval : String) (d1 d2 : Nat) :
    (¬ d2 - d1 > threshold → resp d1 d2 = [] →
      getHistoricalStep1 resp token interval d1 d2 =
        Except.error "KeyError: record_datetime") ∧
    (d2 - d1 > threshold → resp (d2 - threshold) d2 = [] →
      getHistoricalStep1 resp token interval d1 d2 =
        Except.error "ValueError: no objects to concatenate") ∧
    (∀ rows, getHistoricalStep1 resp token interval d1 d2 = Except.ok rows →
      rows ≠ []) := by
  refine ⟨?_, ?_, ?_⟩
  · intro h he
    simp only [getHistoricalStep1, if_neg h]
    simp [normalizeRows, he, step2Rows]
  · intro h he
    simp only [getHistoricalStep1, if_pos h]
    rw [chunkWalk_gt_nil resp d1 d2 h he]
    simp [normalizeRows]
  · intro rows hok
    simp only [getHistoricalStep1] at hok
    revert hok
    generalize (if d2 - d1 > threshold
      then ((chunkWalk resp d1 d2).2).map (step2Rows token interval)
      else [step2Rows token interval (resp d1 d2)]) = dfs
    intro hok
    rw [normalizeRows] at hok
    by_cases h1 : dfs = []
    · simp [h1] at hok
    · rw [if_neg h1] at hok
      by_cases h2 : dfs.flatten = []
      · simp [h2] at hok
      · rw [if_neg h2] at hok
        simp only [Except.ok.injEq] at hok
        subst hok
        exact dedupFirst_ne_nil _ h2

/-- C9, witness: a 14-day span answered empty raises the KeyError of the
normalization tail. -/
theorem C9_witness :
    getHistoricalStep1 respNone 123 "day" 738886 738900 =
      Except.error "KeyError: record_datetime" :=
  (C9_empty_raises respNone 123 "day" 738886 738900).1 (by decide) rfl

/-- C10, counterexample: `onNoReconnect` is in the §4.5 callback list, but
`run()` never assigns the `on_noreconnect` handler — the event is not
received by a registered coordinator handler. -/
theorem C10_counterexample :
    TickerCallback.onNoReconnect ∈ spec45Callbacks ∧
    TickerCallback.onNoReconnect ∉ runWiredCallbacks := by
  decide

/-- C10, amended: `run()` wires handlers for exactly `onOpen`, `onConnect`,
`onTicks`, `onClose`, `onReconnect`, `onError` and `onOrderUpdate`; every
§4.5 callback other than `onNoReconnect` is wired, `onNoReconnect` is not,
and the (unregistered) `on_noreconnect` method would take no protocol action
anyway — its action trace is empty. -/
theorem C10_amended :
    runWiredCallbacks =
      [TickerCallback.onOpen, TickerCallback.onConnect, TickerCallback.onTicks,
       TickerCallback.onClose, TickerCallback.onReconnect, TickerCallback.onError,
       TickerCallback.onOrderUpdate] ∧
    TickerCallback.onNoReconnect ∉ runWiredCallbacks ∧
    (spec45Callbacks.all fun c =>
      c == TickerCallback.onNoReconnect || runWiredCallbacks.contains c) = true ∧
    on_noreconnect_trace = [] := by
  refine ⟨rfl, by decide, by decide, rfl⟩

end ZerodhaApi
